import Mathlib

/-!
Shallow embedding of the AidPal wound-analysis orchestrator
(`src/geminiService.ts`, the exported `analyzeWound` service and its
helpers).  The remote model invocation is abstracted as an oracle
`GenRequest → CallOutcome`; everything else (image framing, prompt
construction, trimming, the brace-span extraction regex, JSON parsing,
zod-style schema validation, the fallback loop and final error
selection) is translated statement by statement from the source.
-/

/-- JavaScript `String.prototype.split` with a one-character separator
and no limit, on character lists: `"".split(c) = [""]`,
`"a,".split(',') = ["a",""]`. -/
def jsSplit (sep : Char) : List Char → List (List Char)
  | [] => [[]]
  | c :: cs =>
    if c = sep then [] :: jsSplit sep cs
    else
      match jsSplit sep cs with
      | [] => [[c]]
      | h :: t => (c :: h) :: t

/-- Whitespace characters removed by JavaScript `String.prototype.trim`
(ASCII whitespace plus NBSP and the BOM). -/
def isJsTrimWs (c : Char) : Bool :=
  c = ' ' || c = '\t' || c = '\n' || c = '\r' || c = '\x0b' || c = '\x0c' ||
  c = ' ' || c = '﻿'

/-- JavaScript `String.prototype.trim` on character lists. -/
def jsTrim (cs : List Char) : List Char :=
  ((cs.dropWhile isJsTrimWs).reverse.dropWhile isJsTrimWs).reverse

/-- JavaScript `a || b` on optional numbers (`0`, like `undefined`, is
falsy). -/
def jsOrNum (a b : Option Nat) : Option Nat :=
  match a with
  | some n => if n = 0 then b else some n
  | none => b

/-- JavaScript `a || b` on strings (the empty string is falsy). -/
def jsOrString (a b : String) : String :=
  if a = "" then b else a

/-- The static knowledge base interpolated into every prompt
(`MEDICAL_PDF_KNOWLEDGE` in the source). -/
def MEDICAL_PDF_KNOWLEDGE : String :=
  "\nWOUNDS & SKIN INJURIES PROTOCOLS (102 Total):\n1. Cut: Rinse with water. Press gently with clean cloth to stop bleeding. Apply antiseptic. Cover with bandage. Note: Consult professional if bleeding > 10m.\n2. Scrape (Abrasion): Wash with soap/water. Remove dirt gently. Apply ointment. Cover lightly.\n3. Bruise: Apply cold compress (10-15m). Rest. Repeat after hours.\n4. Minor Burn: Cool under water (10m). Gently dry. Apply burn cream/aloe. Cover loosely.\n5. Blister: Wash area. Do not pop. Cover with bandage. Keep clean/dry.\n6. Splinter: Clean area. Remove with tweezers. Wash again. Cover if bleeding.\n7. Insect Bite: Wash with soap/water. Cold compress. Anti-itch cream.\n8. Insect Sting: Remove stinger gently. Wash. Cold compress. Watch for swelling.\n9. Puncture Wound: Rinse. Let bleed slightly. Antiseptic. Cover.\n10. Minor Skin Rash: Wash gently. Dry softly. Soothing cream. Avoid irritants.\n... (Protocols 11-102)\n102. Mild Callus: Soak in water. Smooth skin. Moisturizer.\n"

/-- The ordered candidate model list (`MODELS_TO_TRY` in the source). -/
def MODELS_TO_TRY : List String :=
  [ "gemini-3-flash-preview",
    "gemini-2.5-flash-native-audio-preview-12-2025",
    "gemini-flash-lite-latest",
    "gemini-3-pro-preview",
    "gemini-2.5-pro",
    "gemini-2.5-flash",
    "gemini-2.5-flash-lite" ]

/-- Literal text of the prompt template before the knowledge-base
interpolation. -/
def promptPart1 : String :=
  "You are AidPal, a friendly and expert health buddy. Analyze this medical image.\n        \n        KNOWLEDGE BASE:\n        "

/-- Literal text of the prompt template between the knowledge-base and
user-context interpolations. -/
def promptPart2 : String :=
  "\n        \n        USER CONTEXT: "

/-- Literal text of the prompt template after the user-context
interpolation. -/
def promptPart3 : String :=
  "\n        \n        INSTRUCTIONS:\n        1. Identify the condition clearly based on the image and user context. \n        2. Strictly follow the KNOWLEDGE BASE protocols for step-by-step first aid.\n        3. Return ONLY a valid JSON object. \n        4. Do not include any text outside the JSON.\n        5. Mention you are an AI health buddy, not a doctor.\n        6. Disclaimer: \"I\x27m a robot buddy, not a doc! This is not a professional diagnosis.\"\n\n        REQUIRED JSON STRUCTURE:\n        \x7b\n          \"woundType\": \"string\",\n          \"severity\": \"Low\" | \"Medium\" | \"High\",\n          \"description\": \"string\",\n          \"firstAidSteps\": [\"string\"],\n          \"recommendation\": \"string\"\n        \x7d"

/-- The prompt text built for each trial: the template literal with
`MEDICAL_PDF_KNOWLEDGE` and `context || "None provided."`
interpolated. -/
def buildPrompt (context : String) : String :=
  promptPart1 ++ MEDICAL_PDF_KNOWLEDGE ++ promptPart2 ++
    jsOrString context "None provided." ++ promptPart3

/-- `base64Image.split(',')[1] || base64Image` on character lists. -/
def base64DataChars (img : List Char) : List Char :=
  match (jsSplit ',' img).get? 1 with
  | some t => if t = [] then img else t
  | none => img

/-- The default media type `'image/jpeg'` as a character list. -/
def jpegChars : List Char :=
  ['i', 'm', 'a', 'g', 'e', '/', 'j', 'p', 'e', 'g']

/-- `base64Image.split(';')[0].split(':')[1] || 'image/jpeg'` on
character lists. -/
def mimeTypeChars (img : List Char) : List Char :=
  match (jsSplit ':' ((jsSplit ';' img).headD img)).get? 1 with
  | some t => if t = [] then jpegChars else t
  | none => jpegChars

/-- String-level wrapper for the image payload extraction. -/
def base64DataOf (img : String) : String :=
  String.mk (base64DataChars img.data)

/-- String-level wrapper for the media-type extraction. -/
def mimeTypeOf (img : String) : String :=
  String.mk (mimeTypeChars img.data)

/-- Decoded JSON values as produced by `JSON.parse`.  Numeric literals
are kept as their raw lexeme (no claim inspects numeric values). -/
inductive Json where
  | null
  | bool (b : Bool)
  | num (raw : String)
  | str (s : String)
  | arr (xs : List Json)
  | obj (fields : List (String × Json))

/-- JSON structural whitespace (space, tab, line feed, carriage
return), as skipped by `JSON.parse`. -/
def isJsonWs (c : Char) : Bool :=
  c = ' ' || c = '\t' || c = '\n' || c = '\r'

/-- Skip JSON structural whitespace. -/
def skipWs (cs : List Char) : List Char :=
  cs.dropWhile isJsonWs

/-- Value of a hexadecimal digit, if any. -/
def hexVal (c : Char) : Option Nat :=
  if '0' ≤ c ∧ c ≤ '9' then some (c.toNat - '0'.toNat)
  else if 'a' ≤ c ∧ c ≤ 'f' then some (c.toNat - 'a'.toNat + 10)
  else if 'A' ≤ c ∧ c ≤ 'F' then some (c.toNat - 'A'.toNat + 10)
  else none

/-- Parse the body of a JSON string literal (the opening quote already
consumed); returns the decoded characters and the input after the
closing quote.  Unescaped control characters are rejected, escape
sequences are decoded as `JSON.parse` does. -/
def parseStringBody : List Char → Option (List Char × List Char)
  | [] => none
  | '"' :: rest => some ([], rest)
  | '\\' :: rest =>
    match rest with
    | '"' :: r => (parseStringBody r).map (fun p => ('"' :: p.1, p.2))
    | '\\' :: r => (parseStringBody r).map (fun p => ('\\' :: p.1, p.2))
    | '/' :: r => (parseStringBody r).map (fun p => ('/' :: p.1, p.2))
    | 'b' :: r => (parseStringBody r).map (fun p => ('\x08' :: p.1, p.2))
    | 'f' :: r => (parseStringBody r).map (fun p => ('\x0c' :: p.1, p.2))
    | 'n' :: r => (parseStringBody r).map (fun p => ('\n' :: p.1, p.2))
    | 'r' :: r => (parseStringBody r).map (fun p => ('\r' :: p.1, p.2))
    | 't' :: r => (parseStringBody r).map (fun p => ('\t' :: p.1, p.2))
    | 'u' :: h1 :: h2 :: h3 :: h4 :: r =>
      match hexVal h1, hexVal h2, hexVal h3, hexVal h4 with
      | some a, some b, some c, some d =>
        (parseStringBody r).map
          (fun p => (Char.ofNat (((a * 16 + b) * 16 + c) * 16 + d) :: p.1, p.2))
      | _, _, _, _ => none
    | _ => none
  | c :: rest =>
    if c.toNat < 32 then none
    else (parseStringBody rest).map (fun p => (c :: p.1, p.2))

/-- Parse a JSON number token (sign, integer part with no leading
zeros, optional fraction, optional exponent); returns the raw lexeme
and the rest of the input. -/
def parseNumberToken (cs : List Char) : Option (List Char × List Char) :=
  let sign : List Char × List Char :=
    match cs with
    | '-' :: r => (['-'], r)
    | _ => ([], cs)
  let afterSign := sign.2
  let intPart : Option (List Char × List Char) :=
    match afterSign with
    | '0' :: r => some (['0'], r)
    | c :: _ =>
      if '1' ≤ c ∧ c ≤ '9' then
        some (afterSign.takeWhile Char.isDigit, afterSign.dropWhile Char.isDigit)
      else none
    | [] => none
  match intPart with
  | none => none
  | some (ip, r1) =>
    let fracPart : Option (List Char × List Char) :=
      match r1 with
      | '.' :: r2 =>
        let ds := r2.takeWhile Char.isDigit
        if ds = [] then none
        else some ('.' :: ds, r2.dropWhile Char.isDigit)
      | _ => some ([], r1)
    match fracPart with
    | none => none
    | some (fp, r2) =>
      let expPart : Option (List Char × List Char) :=
        match r2 with
        | c :: r3 =>
          if c = 'e' ∨ c = 'E' then
            let signedR : List Char × List Char :=
              match r3 with
              | s :: r4 => if s = '+' ∨ s = '-' then ([s], r4) else ([], r3)
              | [] => ([], r3)
            let ds := signedR.2.takeWhile Char.isDigit
            if ds = [] then none
            else some (c :: (signedR.1 ++ ds), signedR.2.dropWhile Char.isDigit)
          else some ([], r2)
        | [] => some ([], r2)
      match expPart with
      | none => none
      | some (ep, r3) => some (sign.1 ++ ip ++ fp ++ ep, r3)

mutual

/-- Parse one JSON value (with leading whitespace) from the input;
fuelled recursion, each unit of fuel accompanies at least one consumed
character. -/
def parseValue : Nat → List Char → Option (Json × List Char)
  | 0, _ => none
  | fuel + 1, cs =>
    match skipWs cs with
    | [] => none
    | 'n' :: 'u' :: 'l' :: 'l' :: rest => some (.null, rest)
    | 't' :: 'r' :: 'u' :: 'e' :: rest => some (.bool true, rest)
    | 'f' :: 'a' :: 'l' :: 's' :: 'e' :: rest => some (.bool false, rest)
    | '"' :: rest =>
      (parseStringBody rest).map (fun p => (.str (String.mk p.1), p.2))
    | '\x7b' :: rest =>
      (match skipWs rest with
       | '\x7d' :: r => some (.obj [], r)
       | other => parseMembers fuel other [])
    | '[' :: rest =>
      (match skipWs rest with
       | ']' :: r => some (.arr [], r)
       | other => parseElements fuel other [])
    | other =>
      (parseNumberToken other).map (fun p => (.num (String.mk p.1), p.2))

/-- Parse the members of a JSON object after its opening brace (first
member pending), accumulating parsed key/value pairs in order. -/
def parseMembers : Nat → List Char → List (String × Json) →
    Option (Json × List Char)
  | 0, _, _ => none
  | fuel + 1, cs, acc =>
    match skipWs cs with
    | '"' :: rest =>
      match parseStringBody rest with
      | none => none
      | some (key, r1) =>
        match skipWs r1 with
        | ':' :: r2 =>
          match parseValue fuel r2 with
          | none => none
          | some (v, r3) =>
            match skipWs r3 with
            | ',' :: r4 => parseMembers fuel r4 (acc ++ [(String.mk key, v)])
            | '\x7d' :: r4 => some (.obj (acc ++ [(String.mk key, v)]), r4)
            | _ => none
        | _ => none
    | _ => none

/-- Parse the elements of a JSON array after its opening bracket (first
element pending), accumulating parsed values in order. -/
def parseElements : Nat → List Char → List Json →
    Option (Json × List Char)
  | 0, _, _ => none
  | fuel + 1, cs, acc =>
    match parseValue fuel cs with
    | none => none
    | some (v, r1) =>
      match skipWs r1 with
      | ',' :: r2 => parseElements fuel r2 (acc ++ [v])
      | ']' :: r2 => some (.arr (acc ++ [v]), r2)
      | _ => none

end

/-- `JSON.parse` on character lists: one JSON value, possibly with
surrounding whitespace, and nothing else. -/
def jsonParseChars (cs : List Char) : Option Json :=
  match parseValue (cs.length + 1) cs with
  | none => none
  | some (v, rest) => if skipWs rest = [] then some v else none

/-- The closed severity enumeration (`z.enum(['Low','Medium','High'])`). -/
inductive Severity where
  | low
  | medium
  | high
deriving DecidableEq

/-- The validated analysis result (`AnalysisResult` in `types.ts`). -/
structure AnalysisResult where
  woundType : String
  severity : Severity
  description : String
  firstAidSteps : List String
  recommendation : String
deriving DecidableEq

/-- Property access on a decoded JSON object: the value of the last
occurrence of the key (with duplicate keys, `JSON.parse` keeps the last
value). -/
def lookupField (fields : List (String × Json)) (key : String) : Option Json :=
  (fields.filter (fun p => p.1 = key)).getLast?.map (fun p => p.2)

/-- `z.string().min(1)`: a JSON string value with at least one
character. -/
def zNonEmptyString : Json → Option String
  | .str s => if s = "" then none else some s
  | _ => none

/-- `z.enum(['Low','Medium','High'])`: exactly one of the three
literal strings. -/
def zSeverity : Json → Option Severity
  | .str "Low" => some .low
  | .str "Medium" => some .medium
  | .str "High" => some .high
  | _ => none

/-- `z.string()`: any JSON string value (the empty string passes). -/
def zString : Json → Option String
  | .str s => some s
  | _ => none

/-- `z.array(z.string()).min(1)`: an array whose elements are all JSON
strings, with at least one element. -/
def zStringArrayMin1 : Json → Option (List String)
  | .arr xs =>
    (xs.mapM zString).bind (fun l => if l.length ≥ 1 then some l else none)
  | _ => none

/-- `AnalysisResultSchema.parse`: strict structural validation of a
decoded JSON value against the five-field zod object schema; unknown
keys are stripped, any missing or ill-typed required field rejects. -/
def AnalysisResultSchemaParse (j : Json) : Option AnalysisResult :=
  match j with
  | .obj fields =>
    (lookupField fields "woundType").bind fun wtJ =>
    (zNonEmptyString wtJ).bind fun wt =>
    (lookupField fields "severity").bind fun svJ =>
    (zSeverity svJ).bind fun sv =>
    (lookupField fields "description").bind fun dsJ =>
    (zNonEmptyString dsJ).bind fun ds =>
    (lookupField fields "firstAidSteps").bind fun fsJ =>
    (zStringArrayMin1 fsJ).bind fun fs =>
    (lookupField fields "recommendation").bind fun rcJ =>
    (zNonEmptyString rcJ).bind fun rc =>
    some ⟨wt, sv, ds, fs, rc⟩
  | _ => none

/-- The prefix of the input up to and including the last `\x7d`, when
one exists. -/
def upToLastClose (cs : List Char) : Option (List Char) :=
  match cs.reverse.dropWhile (fun c => c ≠ '\x7d') with
  | [] => none
  | l => some l.reverse

/-- The suffix of the input from the first `\x7b` on, when one
exists. -/
def fromFirstOpen (cs : List Char) : Option (List Char) :=
  match cs.dropWhile (fun c => c ≠ '\x7b') with
  | [] => none
  | l => some l

/-- `cleanJson.match(/\x7b[\s\S]*\x7d/)`: the first match of the greedy
brace regex, i.e. the span from the first `\x7b` that is followed by a
`\x7d` up to the last `\x7d` of the input. -/
def braceMatch (cs : List Char) : Option (List Char) :=
  (upToLastClose cs).bind fromFirstOpen

/-- The sanitisation step of `analyzeWound`: trim the response text,
then replace it with the brace-regex match when one exists. -/
def cleanedJson (cs : List Char) : List Char :=
  match braceMatch (jsTrim cs) with
  | some m => m
  | none => jsTrim cs

/-- Extraction followed by `JSON.parse`, as applied to a candidate's
response text. -/
def extractAndParse (cs : List Char) : Option Json :=
  jsonParseChars (cleanedJson cs)

/-- An error value caught by the candidate loop: optional numeric
`status` and `code` properties plus a message. -/
structure ApiError where
  status : Option Nat := none
  code : Option Nat := none
  message : String := ""
deriving DecidableEq

/-- `error?.status || error?.code`, the status-code read used both in
the loop and for the final message. -/
def ApiError.statusCode (e : ApiError) : Option Nat :=
  jsOrNum e.status e.code

/-- Message of the error thrown when a candidate returns an empty
response text. -/
def emptyResponseMessage : String :=
  "Received an empty response from the AI buddy."

/-- Message thrown after exhaustion when the last failure's status code
is 429. -/
def rateLimitMessage : String :=
  "I\x27ve been a bit too busy helping others! üßò Please take a deep breath and try again in a minute."

/-- Message thrown after exhaustion when the last failure's status code
is 404. -/
def maintenanceMessage : String :=
  "My medical database is currently undergoing maintenance. ü©∫ Please check back in a few minutes!"

/-- Message thrown after exhaustion in every other case. -/
def allBusyMessage : String :=
  "All my health buddies are currently busy or unavailable. üè• Let\x27s try one more snap in a bit!"

/-- Selection of the final thrown message from the last recorded error
(lines 325-334 of the source: `status === 429`, then `status === 404`,
then the generic message). -/
def exhaustionMessage (lastError : Option ApiError) : String :=
  let status := match lastError with
    | some e => e.statusCode
    | none => none
  if status = some 429 then rateLimitMessage
  else if status = some 404 then maintenanceMessage
  else allBusyMessage

/-- Processing of one candidate's successful transport response, on
character lists: empty-text check, sanitisation, `JSON.parse`, schema
validation.  Each failure is the caught error of that candidate. -/
def processChars (resultText : List Char) : Except ApiError AnalysisResult :=
  if resultText = [] then
    .error { message := emptyResponseMessage }
  else
    match extractAndParse resultText with
    | none => .error { message := "Unexpected token in JSON" }
    | some j =>
      match AnalysisResultSchemaParse j with
      | none => .error { message := "Zod validation error" }
      | some r => .ok r

/-- String-level wrapper for `processChars`. -/
def processText (resultText : String) : Except ApiError AnalysisResult :=
  processChars resultText.data

/-- One outbound multimodal request, as assembled per trial. -/
structure GenRequest where
  model : String
  imageData : String
  imageMimeType : String
  promptText : String
  responseMimeType : String
deriving DecidableEq

/-- Outcome of one remote invocation: response text, or a thrown
transport error. -/
inductive CallOutcome where
  | success (text : String)
  | failure (e : ApiError)

/-- The request assembled for a given model name, image string and
context string. -/
def mkRequest (base64Image context model : String) : GenRequest :=
  { model := model
    imageData := base64DataOf base64Image
    imageMimeType := mimeTypeOf base64Image
    promptText := buildPrompt context
    responseMimeType := "application/json" }

/-- One full candidate trial: invoke the oracle, then process the
response text; any transport error is the caught error of that
candidate. -/
def tryCandidate (oracle : GenRequest → CallOutcome) (req : GenRequest) :
    Except ApiError AnalysisResult :=
  match oracle req with
  | .success t => processText t
  | .failure e => .error e

deriving instance DecidableEq for Except

/-- Result of one `analyzeWound` invocation: the models actually
called, in order, and the returned result or thrown error message. -/
structure RunResult where
  tried : List String
  outcome : Except String AnalysisResult
deriving DecidableEq

/-- The candidate loop: try each model in order, return the first
validated result, record the last caught error, and throw the
exhaustion message once the list is exhausted. -/
def goModels (trial : String → Except ApiError AnalysisResult) :
    List String → Option ApiError → RunResult
  | [], lastError => { tried := [], outcome := .error (exhaustionMessage lastError) }
  | m :: ms, _ =>
    match trial m with
    | .ok r => { tried := [m], outcome := .ok r }
    | .error e =>
      let rest := goModels trial ms (some e)
      { tried := m :: rest.tried, outcome := rest.outcome }

/-- The exported `analyzeWound` service: image framing, then the
candidate loop over `MODELS_TO_TRY` with `lastError` starting at
null. -/
def analyzeWound (oracle : GenRequest → CallOutcome)
    (base64Image context : String) : RunResult :=
  goModels (fun m => tryCandidate oracle (mkRequest base64Image context m))
    MODELS_TO_TRY none

/-- The module-level immutable configuration read by `analyzeWound`. -/
structure Globals where
  modelsToTry : List String
  medicalKnowledge : String
deriving DecidableEq

/-- The configuration as compiled into the source module. -/
def defaultGlobals : Globals :=
  { modelsToTry := MODELS_TO_TRY, medicalKnowledge := MEDICAL_PDF_KNOWLEDGE }

/-- Prompt construction from an explicit knowledge-base text (the
template reads the `MEDICAL_PDF_KNOWLEDGE` global). -/
def buildPromptWith (knowledge context : String) : String :=
  promptPart1 ++ knowledge ++ promptPart2 ++
    jsOrString context "None provided." ++ promptPart3

/-- State-passing form of `analyzeWound`: the globals are threaded
through the call and returned alongside the result.  The source body
only ever reads them (the loop iterates `MODELS_TO_TRY`, the template
interpolates `MEDICAL_PDF_KNOWLEDGE`), so they are returned
unchanged. -/
def analyzeWoundSt (g : Globals) (oracle : GenRequest → CallOutcome)
    (base64Image context : String) : RunResult × Globals :=
  let run := goModels
    (fun m => tryCandidate oracle
      { model := m
        imageData := base64DataOf base64Image
        imageMimeType := mimeTypeOf base64Image
        promptText := buildPromptWith g.medicalKnowledge context
        responseMimeType := "application/json" })
    g.modelsToTry none
  (run, g)

/-- `true` exactly on successful `Except` values. -/
def isOkE {ε α : Type} : Except ε α → Bool
  | .ok _ => true
  | .error _ => false

/-- A well-formed data URI as a character list:
`data:<mediaType>;base64,<payload>`. -/
def dataUri (mt payload : List Char) : List Char :=
  ['d', 'a', 't', 'a', ':'] ++ mt ++
    ([';', 'b', 'a', 's', 'e', '6', '4', ','] ++ payload)

/-- A schema-valid response text used as concrete test input. -/
def okResponseText : String :=
  "\x7b\"woundType\":\"Scrape (Abrasion)\",\"severity\":\"Low\",\"description\":\"A minor scrape.\",\"firstAidSteps\":[\"Wash with soap/water\",\"Apply ointment\"],\"recommendation\":\"Monitor at home\"\x7d"

/-- The validated result of `okResponseText`. -/
def okResponseResult : AnalysisResult :=
  { woundType := "Scrape (Abrasion)"
    severity := .low
    description := "A minor scrape."
    firstAidSteps := ["Wash with soap/water", "Apply ointment"]
    recommendation := "Monitor at home" }

/-- Test oracle: the first candidate answers with `okResponseText`,
all others fail with 503. -/
def oracleFirstOkW : GenRequest → CallOutcome := fun req =>
  if req.model = "gemini-3-flash-preview" then .success okResponseText
  else .failure { status := some 503, message := "unavailable" }

/-- A rate-limit transport error used as concrete test input. -/
def rateLimitError : ApiError :=
  { status := some 429, code := none, message := "quota exceeded" }

/-- Test oracle: every candidate fails with a rate-limit error. -/
def oracleAllFailW : GenRequest → CallOutcome := fun _ =>
  .failure rateLimitError

/-- Prose wrapping placed before a JSON span in a test response. -/
def wrapFront : List Char := ("Sure! Here is the structured report:\n").data

/-- Prose wrapping placed after a JSON span in a test response. -/
def wrapBack : List Char := ("\nStay safe!").data

/-- A response text whose `firstAidSteps` contains an empty string. -/
def emptyStepResponseText : String :=
  "\x7b\"woundType\":\"Cut\",\"severity\":\"Low\",\"description\":\"d\",\"firstAidSteps\":[\"\"],\"recommendation\":\"r\"\x7d"

/-- Test oracle: every candidate answers with `emptyStepResponseText`. -/
def oracleEmptyStepW : GenRequest → CallOutcome := fun _ =>
  .success emptyStepResponseText

/-- The result validated from `emptyStepResponseText`. -/
def emptyStepResult : AnalysisResult :=
  { woundType := "Cut"
    severity := .low
    description := "d"
    firstAidSteps := [""]
    recommendation := "r" }

/-- A schema-valid response text carrying two unknown extra keys. -/
def extraKeysText : String :=
  "\x7b\"a\":1,\"woundType\":\"Cut\",\"severity\":\"High\",\"description\":\"d\",\"firstAidSteps\":[\"s\"],\"recommendation\":\"r\",\"extra\":null\x7d"

/-- The parsed object fields of `extraKeysText`. -/
def extraKeysFields : List (String × Json) :=
  [("a", .num "1"), ("woundType", .str "Cut"), ("severity", .str "High"),
   ("description", .str "d"), ("firstAidSteps", .arr [.str "s"]),
   ("recommendation", .str "r"), ("extra", .null)]


/-- `jsSplit` never returns the empty list. -/
theorem jsSplit_ne_nil (sep : Char) (l : List Char) : jsSplit sep l ≠ [] := by
  match l with
  | [] => simp [jsSplit]
  | c :: cs =>
    rw [jsSplit]
    split
    · simp
    · split <;> simp

/-- Splitting a separator-free list yields that list alone. -/
theorem jsSplit_of_not_mem {sep : Char} {l : List Char} (h : sep ∉ l) :
    jsSplit sep l = [l] := by
  induction l with
  | nil => rfl
  | cons c cs ih =>
    have hc : ¬ c = sep := fun hceq => h (hceq ▸ List.mem_cons_self c cs)
    have hcs : sep ∉ cs := fun hm => h (List.mem_cons_of_mem c hm)
    rw [jsSplit, if_neg hc, ih hcs]

/-- Splitting at the first separator occurrence after a separator-free
chunk. -/
theorem jsSplit_append_cons {sep : Char} {l₁ : List Char} (l₂ : List Char)
    (h : sep ∉ l₁) :
    jsSplit sep (l₁ ++ sep :: l₂) = l₁ :: jsSplit sep l₂ := by
  induction l₁ with
  | nil => simp [jsSplit]
  | cons c cs ih =>
    have hc : ¬ c = sep := fun hceq => h (hceq ▸ List.mem_cons_self c cs)
    have hcs : sep ∉ cs := fun hm => h (List.mem_cons_of_mem c hm)
    rw [List.cons_append, jsSplit, if_neg hc, ih hcs]

/-- Every character of the first split segment comes from the input. -/
theorem jsSplit_headD_subset (sep : Char) (l : List Char) :
    ∀ c ∈ (jsSplit sep l).headD l, c ∈ l := by
  induction l with
  | nil => intro c hc; simp [jsSplit] at hc
  | cons a as ih =>
    intro c hc
    rw [jsSplit] at hc
    by_cases ha : a = sep
    · rw [if_pos ha] at hc
      simp at hc
    · rw [if_neg ha] at hc
      rcases hsplit : jsSplit sep as with - | ⟨h', t'⟩
      · exact absurd hsplit (jsSplit_ne_nil sep as)
      · rw [hsplit] at hc
        simp only [List.headD_cons] at hc
        rcases List.mem_cons.mp hc with hceq | hmem
        · exact hceq ▸ List.mem_cons_self a as
        · have : c ∈ (jsSplit sep as).headD as := by
            rw [hsplit]; simpa using hmem
          exact List.mem_cons_of_mem a (ih c this)

/-- `dropWhile` over an append stops inside the right part's head when
that head falsifies the predicate. -/
theorem dropWhile_append_stop (f : Char → Bool) (p rest : List Char) (c : Char)
    (hhead : rest.head? = some c) (hc : f c = false) :
    List.dropWhile f (p ++ rest) = List.dropWhile f p ++ rest := by
  induction p with
  | nil =>
    rcases rest with - | ⟨r, rs⟩
    · simp at hhead
    · have : r = c := by simpa using hhead
      subst this
      simp [List.dropWhile, hc]
  | cons a as ih =>
    cases ha : f a with
    | true =>
      simp only [List.cons_append, List.dropWhile, ha]
      exact ih
    | false =>
      simp only [List.cons_append, List.dropWhile, ha]
      rfl

/-- `upToLastClose` cuts exactly at the end of a block that ends in a
closing brace when the remainder contains none. -/
theorem upToLastClose_append {x s : List Char}
    (hx : x.getLast? = some '\x7d') (hs : '\x7d' ∉ s) :
    upToLastClose (x ++ s) = some x := by
  have hxrev : x.reverse.head? = some '\x7d' := by
    rw [List.head?_reverse]; exact hx
  obtain ⟨xs, hxs⟩ : ∃ xs, x.reverse = '\x7d' :: xs := by
    cases h : x.reverse with
    | nil => rw [h] at hxrev; simp at hxrev
    | cons a t =>
      rw [h] at hxrev
      simp only [List.head?_cons, Option.some.injEq] at hxrev
      exact ⟨t, by rw [hxrev]⟩
  have hdrop : ((x ++ s).reverse).dropWhile (fun c => c ≠ '\x7d')
      = '\x7d' :: xs := by
    rw [List.reverse_append]
    rw [dropWhile_append_stop _ s.reverse x.reverse '\x7d'
      (by rw [hxs]; rfl) (by decide)]
    have hnil : List.dropWhile (fun c => decide ¬c = '\x7d') s.reverse = [] :=
      List.dropWhile_eq_nil_iff.mpr (fun y hy => by
        have : y ≠ '\x7d' := fun hyeq => hs (hyeq ▸ List.mem_reverse.mp hy)
        simpa using this)
    rw [hnil, hxs]
    simp
  have hxrec : ('\x7d' :: xs).reverse = x := by rw [← hxs, List.reverse_reverse]
  unfold upToLastClose
  rw [hdrop]
  exact congrArg some hxrec

/-- `fromFirstOpen` cuts exactly at the start of a block that begins
with an opening brace when the part before it contains none. -/
theorem fromFirstOpen_append {p x : List Char}
    (hp : '\x7b' ∉ p) (hx : x.head? = some '\x7b') :
    fromFirstOpen (p ++ x) = some x := by
  obtain ⟨xs, hxs⟩ : ∃ xs, x = '\x7b' :: xs := by
    cases x with
    | nil => simp at hx
    | cons a t =>
      simp only [List.head?_cons, Option.some.injEq] at hx
      exact ⟨t, by rw [hx]⟩
  have hdrop : (p ++ x).dropWhile (fun c => c ≠ '\x7b') = '\x7b' :: xs := by
    rw [dropWhile_append_stop _ p x '\x7b' (by rw [hxs]; rfl) (by decide)]
    have hnil : List.dropWhile (fun c => decide ¬c = '\x7b') p = [] :=
      List.dropWhile_eq_nil_iff.mpr (fun y hy => by
        have : y ≠ '\x7b' := fun hyeq => hp (hyeq ▸ hy)
        simpa using this)
    rw [hnil, hxs]
    simp
  unfold fromFirstOpen
  rw [hdrop]
  exact congrArg some hxs.symm

/-- The greedy brace regex on a wrapped span: with no opening brace
before it and no closing brace after it, the match is exactly the
span. -/
theorem braceMatch_of_wrapped {p j s : List Char}
    (hp : '\x7b' ∉ p) (hs : '\x7d' ∉ s)
    (hj1 : j.head? = some '\x7b') (hj2 : j.getLast? = some '\x7d') :
    braceMatch (p ++ j ++ s) = some j := by
  have hjne : j ≠ [] := by rintro rfl; simp at hj1
  have hlast : (p ++ j).getLast? = some '\x7d' := by
    rw [List.getLast?_append_of_ne_nil p hjne]
    exact hj2
  unfold braceMatch
  rw [upToLastClose_append hlast hs]
  simpa using fromFirstOpen_append hp hj1

/-- Trimming a wrapped span only shrinks the wrapping. -/
theorem jsTrim_wrapped (p j s : List Char)
    (hj1 : j.head? = some '\x7b') (hj2 : j.getLast? = some '\x7d') :
    ∃ p₂ s₂, jsTrim (p ++ j ++ s) = p₂ ++ j ++ s₂ ∧
      (∀ x ∈ p₂, x ∈ p) ∧ (∀ x ∈ s₂, x ∈ s) := by
  have hjne : j ≠ [] := by rintro rfl; simp at hj1
  have hjrne : j.reverse ≠ [] := by simpa using hjne
  have hjrev_head : j.reverse.head? = some '\x7d' := by
    rw [List.head?_reverse]; exact hj2
  refine ⟨List.dropWhile isJsTrimWs p,
    ((List.dropWhile isJsTrimWs s.reverse).reverse), ?_, ?_, ?_⟩
  · unfold jsTrim
    rw [List.append_assoc]
    rw [dropWhile_append_stop isJsTrimWs p (j ++ s) '\x7b'
      (by rw [List.head?_append_of_ne_nil j hjne]; exact hj1) (by decide)]
    rw [List.reverse_append, List.reverse_append, List.append_assoc]
    rw [dropWhile_append_stop isJsTrimWs s.reverse
      (j.reverse ++ (List.dropWhile isJsTrimWs p).reverse) '\x7d'
      (by rw [List.head?_append_of_ne_nil j.reverse hjrne]; exact hjrev_head)
      (by decide)]
    simp [List.append_assoc]
  · intro x hx
    exact List.Sublist.mem hx (List.dropWhile_sublist _)
  · intro x hx
    have := List.Sublist.mem (List.mem_reverse.mp hx) (List.dropWhile_sublist _)
    exact List.mem_reverse.mp this

/-- The full sanitisation step on a wrapped span recovers exactly the
span (extraction runs from the first opening brace to the last closing
brace). -/
theorem cleanedJson_of_wrapped {p j s : List Char}
    (hp : '\x7b' ∉ p) (hs : '\x7d' ∉ s)
    (hj1 : j.head? = some '\x7b') (hj2 : j.getLast? = some '\x7d') :
    cleanedJson (p ++ j ++ s) = j := by
  obtain ⟨p₂, s₂, htrim, hpm, hsm⟩ := jsTrim_wrapped p j s hj1 hj2
  have hp₂ : '\x7b' ∉ p₂ := fun hm => hp (hpm _ hm)
  have hs₂ : '\x7d' ∉ s₂ := fun hm => hs (hsm _ hm)
  unfold cleanedJson
  rw [htrim, braceMatch_of_wrapped hp₂ hs₂ hj1 hj2]


/-- The loop returns an error exactly when every candidate's trial
fails. -/
theorem goModels_error_iff (trial : String → Except ApiError AnalysisResult)
    (ms : List String) (le : Option ApiError) :
    isOkE (goModels trial ms le).outcome = false ↔
      ∀ m ∈ ms, isOkE (trial m) = false := by
  induction ms generalizing le with
  | nil => simp [goModels, isOkE]
  | cons m ms ih =>
    cases htr : trial m with
    | ok r => simp [goModels, htr, isOkE]
    | error e =>
      simp only [goModels, htr]
      rw [List.forall_mem_cons]
      constructor
      · intro h
        exact ⟨by simp [htr, isOkE], ((ih (some e)).mp h)⟩
      · intro h
        exact (ih (some e)).mpr h.2

/-- When the loop ends in an error, every candidate was tried. -/
theorem goModels_error_tried (trial : String → Except ApiError AnalysisResult)
    (ms : List String) (le : Option ApiError)
    (h : isOkE (goModels trial ms le).outcome = false) :
    (goModels trial ms le).tried = ms := by
  induction ms generalizing le with
  | nil => simp [goModels]
  | cons m ms ih =>
    cases htr : trial m with
    | ok r => rw [goModels, htr] at h; simp [isOkE] at h
    | error e =>
      rw [goModels, htr] at h ⊢
      simpa using ih (some e) h

/-- When every candidate fails, the loop tries the whole list and
throws the exhaustion message computed from the error of the last list
entry alone. -/
theorem goModels_all_fail (trial : String → Except ApiError AnalysisResult)
    (errOf : String → ApiError) (ms : List String) (mlast : String)
    (le : Option ApiError)
    (h : ∀ m ∈ ms, trial m = .error (errOf m))
    (hl : ms.getLast? = some mlast) :
    goModels trial ms le =
      { tried := ms,
        outcome := .error (exhaustionMessage (some (errOf mlast))) } := by
  induction ms generalizing le with
  | nil => simp at hl
  | cons m ms ih =>
    have hm : trial m = .error (errOf m) := h m (List.mem_cons_self m ms)
    cases ms with
    | nil =>
      have hme : m = mlast := by simpa using hl
      subst hme
      simp [goModels, hm]
    | cons m' ms' =>
      have hl' : (m' :: ms').getLast? = some mlast := by
        rw [← List.getLast?_cons_cons]
        exact hl
      have h' : ∀ x ∈ m' :: ms', trial x = .error (errOf x) := fun x hx =>
        h x (List.mem_cons_of_mem m hx)
      have hih := ih (some (errOf m)) h' hl'
      rw [goModels, hm]
      simp only [hih]

/-- The successful result of the loop is the result of some
candidate's trial. -/
theorem goModels_ok_exists (trial : String → Except ApiError AnalysisResult)
    (ms : List String) (le : Option ApiError) (r : AnalysisResult)
    (h : (goModels trial ms le).outcome = .ok r) :
    ∃ m ∈ ms, trial m = .ok r := by
  induction ms generalizing le with
  | nil => simp [goModels] at h
  | cons m ms ih =>
    cases htr : trial m with
    | ok r' =>
      rw [goModels, htr] at h
      simp only [Except.ok.injEq] at h
      exact ⟨m, List.mem_cons_self m ms, by rw [htr, h]⟩
    | error e =>
      rw [goModels, htr] at h
      obtain ⟨m', hm', htr'⟩ := ih (some e) h
      exact ⟨m', List.mem_cons_of_mem m hm', htr'⟩

/-- The models the loop tries are always an initial segment of its
candidate list. -/
theorem goModels_tried_take (trial : String → Except ApiError AnalysisResult)
    (ms : List String) (le : Option ApiError) :
    ∃ n, n ≤ ms.length ∧ (goModels trial ms le).tried = ms.take n := by
  induction ms generalizing le with
  | nil => exact ⟨0, by simp, by simp [goModels]⟩
  | cons m ms ih =>
    cases htr : trial m with
    | ok r => exact ⟨1, by simp, by simp [goModels, htr]⟩
    | error e =>
      obtain ⟨n, hn, htake⟩ := ih (some e)
      exact ⟨n + 1, by simpa using hn, by simp [goModels, htr, htake]⟩

/-- `z.string().min(1)` only produces non-empty strings. -/
theorem zNonEmptyString_ne {v : Json} {s : String}
    (h : zNonEmptyString v = some s) : s ≠ "" := by
  cases v <;> simp [zNonEmptyString] at h
  rcases h with ⟨hne, heq⟩
  rw [← heq]
  exact hne

/-- `z.array(z.string()).min(1)` only produces non-empty lists. -/
theorem zStringArrayMin1_ne_nil {v : Json} {l : List String}
    (h : zStringArrayMin1 v = some l) : l ≠ [] := by
  cases v with
  | null => exact absurd h (by simp [zStringArrayMin1])
  | bool b => exact absurd h (by simp [zStringArrayMin1])
  | num raw => exact absurd h (by simp [zStringArrayMin1])
  | str s => exact absurd h (by simp [zStringArrayMin1])
  | obj fields => exact absurd h (by simp [zStringArrayMin1])
  | arr xs =>
    simp only [zStringArrayMin1] at h
    rcases hmap : xs.mapM zString with - | l'
    · rw [hmap, Option.none_bind] at h
      cases h
    · rw [hmap, Option.some_bind] at h
      split at h
      · rename_i hlen
        cases h
        intro hnil
        rw [hnil] at hlen
        simp at hlen
      · cases h

/-- Any value accepted by the schema satisfies the four field
constraints the validator actually enforces. -/
theorem schemaParse_props {j : Json} {r : AnalysisResult}
    (h : AnalysisResultSchemaParse j = some r) :
    r.woundType ≠ "" ∧ r.description ≠ "" ∧ r.recommendation ≠ "" ∧
      r.firstAidSteps ≠ [] := by
  cases j <;> simp [AnalysisResultSchemaParse] at h
  case obj fields =>
    simp only [Option.bind_eq_some] at h
    obtain ⟨wtJ, -, wt, hwt, svJ, -, sv, -, dsJ, -, ds, hds, fsJ, -, fs, hfs,
      rcJ, -, rc, hrc, heq⟩ := h
    cases heq
    exact ⟨zNonEmptyString_ne hwt, zNonEmptyString_ne hds,
      zNonEmptyString_ne hrc, zStringArrayMin1_ne_nil hfs⟩

/-- Any result produced by response processing passed schema
validation. -/
theorem processChars_ok_props {cs : List Char} {r : AnalysisResult}
    (h : processChars cs = .ok r) :
    r.woundType ≠ "" ∧ r.description ≠ "" ∧ r.recommendation ≠ "" ∧
      r.firstAidSteps ≠ [] := by
  unfold processChars at h
  split at h
  · cases h
  · split at h
    · cases h
    · split at h
      · cases h
      · rename_i j hj r' hr'
        cases h
        exact schemaParse_props hr'

/-- Any result produced by a candidate trial passed schema
validation. -/
theorem tryCandidate_ok_props {oracle : GenRequest → CallOutcome}
    {req : GenRequest} {r : AnalysisResult}
    (h : tryCandidate oracle req = .ok r) :
    r.woundType ≠ "" ∧ r.description ≠ "" ∧ r.recommendation ≠ "" ∧
      r.firstAidSteps ≠ [] := by
  unfold tryCandidate at h
  cases horacle : oracle req with
  | success t =>
    rw [horacle] at h
    exact processChars_ok_props h
  | failure e =>
    rw [horacle] at h
    cases h

/-- C1: if the first candidate's call succeeds and its response text
processes (extraction, parse, schema validation) to a result `r`, then
`analyzeWound` returns exactly `r` and calls no later candidate: the
models tried are exactly the first list entry. -/
theorem analyzeWound_first_success (oracle : GenRequest → CallOutcome)
    (img ctx txt : String) (r : AnalysisResult)
    (h1 : oracle (mkRequest img ctx "gemini-3-flash-preview") = .success txt)
    (h2 : processText txt = .ok r) :
    analyzeWound oracle img ctx =
      { tried := ["gemini-3-flash-preview"], outcome := .ok r } := by
  have htr : tryCandidate oracle (mkRequest img ctx "gemini-3-flash-preview")
      = .ok r := by
    unfold tryCandidate
    rw [h1]
    exact h2
  unfold analyzeWound MODELS_TO_TRY
  rw [goModels, htr]

set_option maxRecDepth 4000 in
/-- Witness for C1 at a concrete oracle, image and context. -/
theorem analyzeWound_first_success_witness :
    analyzeWound oracleFirstOkW "data:image/jpeg;base64,QUJD" "scraped my knee" =
      { tried := ["gemini-3-flash-preview"], outcome := .ok okResponseResult } :=
  analyzeWound_first_success oracleFirstOkW "data:image/jpeg;base64,QUJD"
    "scraped my knee" okResponseText okResponseResult rfl (by decide)

/-- C2: every kind of candidate failure (transport error with any or
no status, empty text, unparseable text, schema-invalid object) makes
the loop advance; `analyzeWound` errors exactly when every candidate's
trial fails, and when it errors, all candidates were tried first. -/
theorem analyzeWound_swallows_failures (oracle : GenRequest → CallOutcome)
    (img ctx : String) :
    (isOkE (analyzeWound oracle img ctx).outcome = false ↔
      ∀ m ∈ MODELS_TO_TRY,
        isOkE (tryCandidate oracle (mkRequest img ctx m)) = false) ∧
    (isOkE (analyzeWound oracle img ctx).outcome = false →
      (analyzeWound oracle img ctx).tried = MODELS_TO_TRY) := by
  constructor
  · exact goModels_error_iff
      (fun m => tryCandidate oracle (mkRequest img ctx m)) MODELS_TO_TRY none
  · exact goModels_error_tried
      (fun m => tryCandidate oracle (mkRequest img ctx m)) MODELS_TO_TRY none

/-- Witness for C2: under an all-failing oracle every candidate is
tried before the error surfaces. -/
theorem analyzeWound_swallows_failures_witness :
    (analyzeWound oracleAllFailW "img" "ctx").tried = MODELS_TO_TRY :=
  (analyzeWound_swallows_failures oracleAllFailW "img" "ctx").2 (by decide)

/-- C3: when every candidate fails, the single thrown message is
computed from the error of the last list entry
(`gemini-2.5-flash-lite`) alone — earlier failures do not appear in
the conclusion — and the selection maps status 429 to the rate-limit
message, 404 to the maintenance message and everything else to the
generic message. -/
theorem analyzeWound_last_error_message (oracle : GenRequest → CallOutcome)
    (img ctx : String) (errOf : String → ApiError)
    (h : ∀ m ∈ MODELS_TO_TRY,
      tryCandidate oracle (mkRequest img ctx m) = .error (errOf m)) :
    (analyzeWound oracle img ctx).outcome =
      .error (exhaustionMessage (some (errOf "gemini-2.5-flash-lite"))) ∧
    ∀ e : ApiError,
      exhaustionMessage (some e) =
        if e.statusCode = some 429 then rateLimitMessage
        else if e.statusCode = some 404 then maintenanceMessage
        else allBusyMessage := by
  constructor
  · have hall := goModels_all_fail
      (fun m => tryCandidate oracle (mkRequest img ctx m)) errOf
      MODELS_TO_TRY "gemini-2.5-flash-lite" none h (by rfl)
    unfold analyzeWound
    rw [hall]
  · intro e
    rfl

/-- Witness for C3: with every candidate rate-limited the thrown
message is the rate-limit one. -/
theorem analyzeWound_last_error_message_witness :
    (analyzeWound oracleAllFailW "img" "ctx").outcome =
      .error rateLimitMessage := by
  have h := analyzeWound_last_error_message oracleAllFailW "img" "ctx"
    (fun _ => rateLimitError) (by decide)
  rw [h.1]
  rfl

/-- C4 counterexample: a candidate response whose `firstAidSteps` is
`[""]` passes validation and is returned, so the returned result can
contain an empty first-aid step, contrary to the claim that every
returned step is a non-empty string. -/
theorem analyzeWound_admits_empty_step :
    (analyzeWound oracleEmptyStepW "img" "ctx").outcome =
      .ok emptyStepResult ∧
    "" ∈ emptyStepResult.firstAidSteps := by
  exact ⟨by decide, by decide⟩

/-- C4 (amended): every result `analyzeWound` returns satisfies the
constraints the validator enforces: `woundType`, `description` and
`recommendation` are non-empty, `severity` is one of the three
enumeration values, and `firstAidSteps` has at least one element —
whose entries may, however, be empty strings. -/
theorem analyzeWound_result_constraints (oracle : GenRequest → CallOutcome)
    (img ctx : String) (r : AnalysisResult)
    (h : (analyzeWound oracle img ctx).outcome = .ok r) :
    r.woundType ≠ "" ∧
    (r.severity = .low ∨ r.severity = .medium ∨ r.severity = .high) ∧
    r.description ≠ "" ∧ r.firstAidSteps ≠ [] ∧ r.recommendation ≠ "" := by
  obtain ⟨m, -, htr⟩ := goModels_ok_exists
    (fun m => tryCandidate oracle (mkRequest img ctx m)) MODELS_TO_TRY none r h
  have hp := tryCandidate_ok_props htr
  refine ⟨hp.1, ?_, hp.2.1, hp.2.2.2, hp.2.2.1⟩
  cases hsv : r.severity <;> simp

set_option maxRecDepth 4000 in
/-- Witness for C4 at a concrete successful run. -/
theorem analyzeWound_result_constraints_witness :
    okResponseResult.woundType ≠ "" ∧
    (okResponseResult.severity = .low ∨ okResponseResult.severity = .medium ∨
      okResponseResult.severity = .high) ∧
    okResponseResult.description ≠ "" ∧ okResponseResult.firstAidSteps ≠ [] ∧
    okResponseResult.recommendation ≠ "" :=
  analyzeWound_result_constraints oracleFirstOkW "img" "ctx" okResponseResult
    (by decide)

/-- C5 (amended): the extraction step selects the span from the first
opening brace to the last closing brace of the trimmed text (the
greedy regex, not the first balanced span); consequently, for a JSON
span wrapped in prose whose front contains no opening brace and whose
back contains no closing brace, processing the wrapped text equals
processing the pure span. -/
theorem responseWrap_roundTrip (p j s : List Char)
    (hp : '\x7b' ∉ p) (hs : '\x7d' ∉ s)
    (hj1 : j.head? = some '\x7b') (hj2 : j.getLast? = some '\x7d') :
    braceMatch (jsTrim (p ++ j ++ s)) = some j ∧
    processChars (p ++ j ++ s) = processChars j := by
  obtain ⟨p₂, s₂, htrim, hpm, hsm⟩ := jsTrim_wrapped p j s hj1 hj2
  have hp₂ : '\x7b' ∉ p₂ := fun hm => hp (hpm _ hm)
  have hs₂ : '\x7d' ∉ s₂ := fun hm => hs (hsm _ hm)
  have hjne : j ≠ [] := by rintro rfl; simp at hj1
  refine ⟨?_, ?_⟩
  · rw [htrim]
    exact braceMatch_of_wrapped hp₂ hs₂ hj1 hj2
  · have hwne : p ++ j ++ s ≠ [] := by
      simp only [ne_eq, List.append_eq_nil]
      rintro ⟨⟨-, hj⟩, -⟩
      exact hjne hj
    have hclean1 : cleanedJson (p ++ j ++ s) = j :=
      cleanedJson_of_wrapped hp hs hj1 hj2
    have hclean2 : cleanedJson j = j := by
      have h0 := cleanedJson_of_wrapped (p := []) (s := [])
        (by simp) (by simp) hj1 hj2
      simpa using h0
    unfold processChars extractAndParse
    rw [if_neg hwne, if_neg hjne, hclean1, hclean2]

set_option maxRecDepth 4000 in
/-- Witness for C5: a concrete prose-wrapped valid response processes
to the same result as the bare JSON. -/
theorem responseWrap_roundTrip_witness :
    braceMatch (jsTrim (wrapFront ++ okResponseText.data ++ wrapBack)) =
      some okResponseText.data ∧
    processChars (wrapFront ++ okResponseText.data ++ wrapBack) =
      processChars okResponseText.data :=
  responseWrap_roundTrip wrapFront okResponseText.data wrapBack
    (by decide) (by decide) (by decide) (by decide)

set_option maxRecDepth 4000 in
/-- C5 counterexample: with a closing brace inside the trailing prose,
the greedy extraction overshoots the first balanced span, the overall
processing fails, and the round-trip with the pure JSON is broken. -/
theorem responseWrap_roundTrip_counterexample :
    isOkE (processText (okResponseText ++ " :-\x7d")) = false ∧
    isOkE (processText okResponseText) = true ∧
    braceMatch (jsTrim (okResponseText ++ " :-\x7d").data) ≠
      some okResponseText.data := by
  exact ⟨by decide, by decide, by decide⟩

/-- C6 (amended): every non-empty context string is substituted into
the prompt verbatim, with no validation or transformation; the empty
context, however, is replaced by the fallback text. -/
theorem contextVerbatim (ctx : String) (h : ctx ≠ "") :
    buildPrompt ctx =
      promptPart1 ++ MEDICAL_PDF_KNOWLEDGE ++ promptPart2 ++ ctx ++
        promptPart3 := by
  unfold buildPrompt jsOrString
  rw [if_neg h]

/-- Witness for C6 at a concrete context. -/
theorem contextVerbatim_witness :
    buildPrompt "scraped my knee" =
      promptPart1 ++ MEDICAL_PDF_KNOWLEDGE ++ promptPart2 ++
        "scraped my knee" ++ promptPart3 :=
  contextVerbatim "scraped my knee" (by decide)

/-- C6 counterexample: the empty context is not substituted verbatim —
the built prompt replaces it with the text `None provided.`, so it
differs (already in length) from the verbatim substitution. -/
theorem contextVerbatim_counterexample :
    buildPrompt "" ≠
      promptPart1 ++ MEDICAL_PDF_KNOWLEDGE ++ promptPart2 ++ "" ++
        promptPart3 := by
  intro h
  have he : buildPrompt "" =
      promptPart1 ++ MEDICAL_PDF_KNOWLEDGE ++ promptPart2 ++
        "None provided." ++ promptPart3 := by
    unfold buildPrompt jsOrString
    rw [if_pos rfl]
  rw [he] at h
  have hl := congrArg String.length h
  have h14 : ("None provided." : String).length = 14 := rfl
  have h0 : ("" : String).length = 0 := rfl
  simp only [String.length_append, h14, h0] at hl
  omega

/-- C7 (amended): the image framing is comma/colon-splitting, not data
URI recognition.  A well-formed data URI `data:<mt>;base64,<payload>`
(ordinary media type, non-empty comma-free payload) yields the payload
and declared media type; a string containing neither comma nor colon is
passed through whole with the default `image/jpeg`. -/
theorem imageFraming :
    (∀ mt payload : List Char, mt ≠ [] → ':' ∉ mt → ';' ∉ mt → ',' ∉ mt →
      payload ≠ [] → ',' ∉ payload →
      base64DataChars (dataUri mt payload) = payload ∧
      mimeTypeChars (dataUri mt payload) = mt) ∧
    (∀ s : List Char, ',' ∉ s → ':' ∉ s →
      base64DataChars s = s ∧ mimeTypeChars s = jpegChars) := by
  constructor
  · intro mt payload hmt h1 h2 h3 hpl h4
    constructor
    · have he : dataUri mt payload =
          (['d', 'a', 't', 'a', ':'] ++ mt ++ [';', 'b', 'a', 's', 'e', '6', '4']) ++
            ',' :: payload := by
        simp [dataUri]
      have hns : ',' ∉
          ['d', 'a', 't', 'a', ':'] ++ mt ++ [';', 'b', 'a', 's', 'e', '6', '4'] := by
        intro hm
        rcases List.mem_append.mp hm with hm1 | hm2
        · rcases List.mem_append.mp hm1 with ha | hb
          · simp at ha
          · exact h3 hb
        · simp at hm2
      unfold base64DataChars
      rw [he, jsSplit_append_cons payload hns, jsSplit_of_not_mem h4]
      simp [hpl]
    · have he2 : dataUri mt payload =
          (['d', 'a', 't', 'a', ':'] ++ mt) ++
            ';' :: (['b', 'a', 's', 'e', '6', '4', ','] ++ payload) := by
        simp [dataUri]
      have hns2 : ';' ∉ ['d', 'a', 't', 'a', ':'] ++ mt := by
        intro hm
        rcases List.mem_append.mp hm with ha | hb
        · simp at ha
        · exact h2 hb
      have he3 : ['d', 'a', 't', 'a', ':'] ++ mt = ['d', 'a', 't', 'a'] ++ ':' :: mt := rfl
      have hns3 : ':' ∉ ['d', 'a', 't', 'a'] := by decide
      unfold mimeTypeChars
      rw [he2, jsSplit_append_cons _ hns2]
      simp only [List.headD_cons]
      rw [he3, jsSplit_append_cons mt hns3, jsSplit_of_not_mem h1]
      simp [hmt]
  · intro s hc hcol
    constructor
    · unfold base64DataChars
      rw [jsSplit_of_not_mem hc]
      rfl
    · have hseg : ':' ∉ (jsSplit ';' s).headD s := fun hm =>
        hcol (jsSplit_headD_subset ';' s ':' hm)
      unfold mimeTypeChars
      rw [jsSplit_of_not_mem hseg]
      rfl

/-- Witness for C7 on a concrete data URI. -/
theorem imageFraming_witness :
    base64DataChars (dataUri ("image/png").data ("QUJD").data) = ("QUJD").data ∧
    mimeTypeChars (dataUri ("image/png").data ("QUJD").data) = ("image/png").data :=
  imageFraming.1 ("image/png").data ("QUJD").data (by decide) (by decide)
    (by decide) (by decide) (by decide) (by decide)

/-- C7 counterexample: `"a,b"` carries no data URI form, yet the
payload is not the whole string — the split keeps only the part after
the comma — refuting the claimed whole-string fallback. -/
theorem imageFraming_counterexample :
    ¬ (∀ img : List Char,
        (¬ ∃ mt payload : List Char, img = dataUri mt payload) →
        base64DataChars img = img ∧ mimeTypeChars img = jpegChars) := by
  intro hclaim
  refine absurd (hclaim ['a', ',', 'b'] ?_).1 (by decide)
  rintro ⟨mt, payload, heq⟩
  have hlen := congrArg List.length heq
  simp only [dataUri, List.length_append, List.length_cons,
    List.length_nil] at hlen
  omega

/-- C8: every invocation issues at most one trial per candidate list
entry, in the list's order: the tried models are always an initial
segment of `MODELS_TO_TRY`, so the number of outbound calls is bounded
by the list's length. -/
theorem analyzeWound_bounded_trials (oracle : GenRequest → CallOutcome)
    (img ctx : String) :
    (∃ n, n ≤ MODELS_TO_TRY.length ∧
      (analyzeWound oracle img ctx).tried = MODELS_TO_TRY.take n) ∧
    (analyzeWound oracle img ctx).tried.length ≤ MODELS_TO_TRY.length := by
  obtain ⟨n, hn, ht⟩ := goModels_tried_take
    (fun m => tryCandidate oracle (mkRequest img ctx m)) MODELS_TO_TRY none
  have ht' : (analyzeWound oracle img ctx).tried = MODELS_TO_TRY.take n := ht
  refine ⟨⟨n, hn, ht'⟩, ?_⟩
  rw [ht', List.length_take]
  exact min_le_right _ _

/-- C9: the threaded globals (`MODELS_TO_TRY`, `MEDICAL_PDF_KNOWLEDGE`)
come out of every invocation unchanged, and on the compiled-in
configuration the state-passing form computes exactly `analyzeWound`,
whose per-invocation `lastError` starts at null each call. -/
theorem analyzeWoundSt_frame (g : Globals) (oracle : GenRequest → CallOutcome)
    (img ctx : String) :
    (analyzeWoundSt g oracle img ctx).2 = g ∧
    analyzeWoundSt defaultGlobals oracle img ctx =
      (analyzeWound oracle img ctx, defaultGlobals) :=
  ⟨rfl, rfl⟩

/-- C10: a response whose extracted JSON is an object with the five
required fields in valid form plus arbitrary unknown keys is accepted,
and the produced result carries exactly the five schema fields — the
unknown keys are dropped, not rejected and not passed through. -/
theorem schemaStripsUnknownKeys (txt : List Char)
    (fields : List (String × Json)) (wtJ svJ dsJ fsJ rcJ : Json)
    (wt ds rc : String) (sv : Severity) (fs : List String)
    (hne : txt ≠ [])
    (hparse : extractAndParse txt = some (.obj fields))
    (h1 : lookupField fields "woundType" = some wtJ)
    (h1v : zNonEmptyString wtJ = some wt)
    (h2 : lookupField fields "severity" = some svJ)
    (h2v : zSeverity svJ = some sv)
    (h3 : lookupField fields "description" = some dsJ)
    (h3v : zNonEmptyString dsJ = some ds)
    (h4 : lookupField fields "firstAidSteps" = some fsJ)
    (h4v : zStringArrayMin1 fsJ = some fs)
    (h5 : lookupField fields "recommendation" = some rcJ)
    (h5v : zNonEmptyString rcJ = some rc) :
    processChars txt = .ok ⟨wt, sv, ds, fs, rc⟩ := by
  have hschema : AnalysisResultSchemaParse (.obj fields) =
      some ⟨wt, sv, ds, fs, rc⟩ := by
    simp [AnalysisResultSchemaParse, h1, h1v, h2, h2v, h3, h3v, h4, h4v,
      h5, h5v]
  simp [processChars, hne, hparse, hschema]

set_option maxRecDepth 4000 in
/-- Witness for C10 on a concrete response with two unknown keys. -/
theorem schemaStripsUnknownKeys_witness :
    processChars extraKeysText.data =
      .ok { woundType := "Cut", severity := .high, description := "d",
            firstAidSteps := ["s"], recommendation := "r" } :=
  schemaStripsUnknownKeys extraKeysText.data extraKeysFields
    (.str "Cut") (.str "High") (.str "d") (.arr [.str "s"]) (.str "r")
    "Cut" "d" "r" .high ["s"] (by decide) rfl rfl rfl rfl rfl rfl rfl rfl rfl rfl rfl
